import Mathlib

/-!
Shallow embedding of the sqrl-server timetable ingestion pipeline
(`sqrl/data/sources.py`, `sqrl/models/timetable.py`, `sqrl/utils.py`,
`scrape_courses.py`) and proofs about it.

Python raises exceptions; fallible embedded functions return
`Except PyError`.  Python values are dynamically typed; where a field's
runtime type genuinely varies in the source (the `year` field of
`TimetableSession`, which the constructor annotation declares `int` but
`TimetableSession.parse` populates with a `str` slice), the embedding uses
the dynamic value type `PyVal`.
-/

instance {ε α : Type} [DecidableEq ε] [DecidableEq α] : DecidableEq (Except ε α) := fun a b =>
  match a, b with
  | .ok x, .ok y => decidable_of_iff (x = y) (by simp)
  | .error x, .error y => decidable_of_iff (x = y) (by simp)
  | .ok _, .error _ => isFalse (by simp)
  | .error _, .ok _ => isFalse (by simp)

namespace Sqrl

/-- A dynamically typed Python value (only the types that actually flow
through the embedded code: integers and strings). -/
inductive PyVal where
  | int (n : Int)
  | str (s : String)
deriving DecidableEq, Repr

/-- Python `==` between dynamic values: values of different runtime types
compare unequal (no coercion between `str` and `int`). -/
def pyEq : PyVal → PyVal → Bool
  | .int a, .int b => a == b
  | .str a, .str b => a == b
  | _, _ => false

/-- Python exceptions raised by the embedded code. -/
inductive PyError where
  | valueError (msg : String)
  | keyError (key : String)
  | attributeError (msg : String)
  | indexError
deriving DecidableEq, Repr

/-- Python `int(s)` on a string: optional surrounding whitespace, optional
sign, then a nonempty run of decimal digits; anything else raises
`ValueError`.  (Underscore digit grouping is not modelled; no input in this
development uses it.) -/
def pyIntCore (s : String) : Option Int :=
  let trimmed := ((s.toList.dropWhile Char.isWhitespace).reverse.dropWhile
    Char.isWhitespace).reverse
  let (neg, digits) :=
    match trimmed with
    | '-' :: rest => (true, rest)
    | '+' :: rest => (false, rest)
    | rest => (false, rest)
  if digits.length > 0 && digits.all Char.isDigit then
    let n : Nat := digits.foldl (fun acc c => acc * 10 + (c.toNat - 48)) 0
    some (if neg then -(n : Int) else (n : Int))
  else none

/-- Split a character list on a separator character; like Python
`str.split(sep)` with a one-character separator, the result always has one
more piece than there are separator occurrences (empty pieces included). -/
def splitOnChar (sep : Char) : List Char → List (List Char)
  | [] => [[]]
  | x :: xs =>
    if x = sep then [] :: splitOnChar sep xs
    else
      match splitOnChar sep xs with
      | [] => [[x]]
      | piece :: rest => (x :: piece) :: rest

/-- Python `s.split(sep)` for a one-character separator. -/
def pySplit (sep : Char) (s : String) : List String :=
  (splitOnChar sep s.toList).map String.mk

/-- Python `int(s)`, raising `ValueError` on a malformed literal. -/
def pyInt (s : String) : Except PyError Int :=
  match pyIntCore s with
  | some n => .ok n
  | none => .error (.valueError ("invalid literal for int() with base 10: " ++ s))

/-- Python `str.zfill` for the nonnegative strings used here (the source
only ever calls it on a four-digit year slice). -/
def zfill (width : Nat) (s : String) : String :=
  if width ≤ s.length then s
  else String.mk (List.replicate (width - s.length) '0') ++ s

/-- Embedding of `TimetableSession` from `sqrl/data/sources.py`.  The `year` field is
annotated `int` in the source but `TimetableSession.parse` stores the
string slice `session_code[:4]` into it, so it is embedded dynamically. -/
structure TimetableSession where
  year : PyVal
  summer : Bool
deriving DecidableEq, Repr

/-- Embedding of `TimetableSession.code`: `f-string of self.year.zfill(4) and suffix`
where `suffix = 5 if self.summer else 9`.  `zfill` is a `str` method, so an
`int` year raises `AttributeError`. -/
def TimetableSession.code (t : TimetableSession) : Except PyError String :=
  let suffix := if t.summer then "5" else "9"
  match t.year with
  | .str y => .ok (zfill 4 y ++ suffix)
  | .int _ => .error (.attributeError "int object has no attribute zfill")

/-- Embedding of `TimetableSession.parse`: validates length 5, all-numeric, last digit in
9 or 5, then returns `TimetableSession(session_code[:4], session_code[-1] == 5)`.
Note that `session_code[:4]` is a string slice and `session_code[-1] == 5`
compares a one-character string with the integer 5 (embedded via `pyEq`).
The source's `str.isnumeric` is embedded as all-ASCII-digits, which agrees
with it on every ASCII string. -/
def TimetableSession.parse (session_code : String) : Except PyError TimetableSession :=
  if session_code.length ≠ 5 then
    .error (.valueError ("invalid session code (\"" ++ session_code ++
      "\"): expected string of length 5, not " ++ toString session_code.length))
  else if ¬ (session_code.toList.all Char.isDigit) then
    .error (.valueError ("invalid session code (\"" ++ session_code ++
      "\"): expected numeric string"))
  else if session_code.back.toNat - 48 ≠ 9 ∧ session_code.back.toNat - 48 ≠ 5 then
    .error (.valueError ("invalid session code (\"" ++ session_code ++
      "\"): expected code to end in one of 9 or 5, not " ++ session_code.takeRight 1))
  else
    .ok ⟨.str (session_code.take 4), pyEq (.str (session_code.takeRight 1)) (.int 5)⟩

/-! Entity model from `sqrl/models/timetable.py` and `sqrl/models/common.py`. -/

/-- The `MeetingDay` enumeration. -/
inductive MeetingDay where
  | monday | tuesday | wednesday | thursday | friday | saturday | sunday
deriving DecidableEq, Repr

/-- The `MeetingDay(value)` enum construction: raises `ValueError` on an
unrecognized literal. -/
def MeetingDay.ofString : String → Except PyError MeetingDay
  | "MO" => .ok .monday
  | "TU" => .ok .tuesday
  | "WE" => .ok .wednesday
  | "TH" => .ok .thursday
  | "FR" => .ok .friday
  | "SA" => .ok .saturday
  | "SU" => .ok .sunday
  | s => .error (.valueError ("is not a valid MeetingDay: " ++ s))

/-- The `SectionTeachingMethod` enumeration. -/
inductive SectionTeachingMethod where
  | lecture | tutorial | practical
deriving DecidableEq, Repr

/-- The `.value` of a `SectionTeachingMethod` member. -/
def SectionTeachingMethod.value : SectionTeachingMethod → String
  | .lecture => "LEC"
  | .tutorial => "TUT"
  | .practical => "PRA"

/-- The `SectionTeachingMethod(value)` enum construction. -/
def SectionTeachingMethod.ofString : String → Except PyError SectionTeachingMethod
  | "LEC" => .ok .lecture
  | "TUT" => .ok .tutorial
  | "PRA" => .ok .practical
  | s => .error (.valueError ("is not a valid SectionTeachingMethod: " ++ s))

/-- The `SectionDeliveryMode` enumeration. -/
inductive SectionDeliveryMode where
  | classMode | onlineSync | onlineAsync | inPerson | syncMode | asyncMode | asyif | synif
deriving DecidableEq, Repr

/-- The `SectionDeliveryMode(value)` enum construction. -/
def SectionDeliveryMode.ofString : String → Except PyError SectionDeliveryMode
  | "CLASS" => .ok .classMode
  | "ONLSYNC" => .ok .onlineSync
  | "ONLASYNC" => .ok .onlineAsync
  | "INPER" => .ok .inPerson
  | "SYNC" => .ok .syncMode
  | "ASYNC" => .ok .asyncMode
  | "ASYIF" => .ok .asyif
  | "SYNIF" => .ok .synif
  | s => .error (.valueError ("is not a valid SectionDeliveryMode: " ++ s))

/-- The `CourseTerm` enumeration. -/
inductive CourseTerm where
  | firstSemester | secondSemester | fullYear
deriving DecidableEq, Repr

/-- The `CourseTerm(value)` enum construction. -/
def CourseTerm.ofString : String → Except PyError CourseTerm
  | "F" => .ok .firstSemester
  | "S" => .ok .secondSemester
  | "Y" => .ok .fullYear
  | s => .error (.valueError ("is not a valid CourseTerm: " ++ s))

/-- The `Campus` enumeration. -/
inductive Campus where
  | stGeorge | scarborough | mississauga
deriving DecidableEq, Repr

/-- Embedding of `Time` from `sqrl/models/common.py` (an HH:MM time). -/
structure Time where
  hour : Int
  minute : Int
deriving DecidableEq, Repr

/-- Embedding of `SectionMeeting` from `sqrl/models/timetable.py`. -/
structure SectionMeeting where
  day : MeetingDay
  start_time : Time
  end_time : Time
  assigned_room_1 : Option String
  assigned_room_2 : Option String
deriving DecidableEq, Repr

/-- Embedding of `Instructor` from `sqrl/models/timetable.py`. -/
structure Instructor where
  first_name : String
  last_name : String
deriving DecidableEq, Repr

/-- Embedding of `Section` from `sqrl/models/timetable.py`. -/
structure Section where
  teaching_method : Option SectionTeachingMethod
  section_number : String
  subtitle : Option String
  instructors : List Instructor
  meetings : List SectionMeeting
  delivery_mode : Option SectionDeliveryMode
  cancelled : Bool
  has_waitlist : Bool
  enrolment_capacity : Option Int
  actual_enrolment : Option Int
  actual_waitlist : Option Int
  enrolment_indicator : Option String
deriving DecidableEq, Repr

/-- Embedding of `Section.code`: the source computes
`f-string of self.teaching_method.value, a hyphen, self.section_number`;
when `teaching_method` is `None` the attribute access `.value` raises
`AttributeError`. -/
def Section.code (s : Section) : Except PyError String :=
  match s.teaching_method with
  | some tm => .ok (tm.value ++ "-" ++ s.section_number)
  | none => .error (.attributeError "NoneType object has no attribute value")

/-- Embedding of `Organisation` from `sqrl/models/timetable.py` (primary key `code`). -/
structure Organisation where
  code : String
  name : String
deriving DecidableEq, Repr

/-- Embedding of `Course` from `sqrl/models/timetable.py` (primary key `id`). -/
structure Course where
  id : String
  organisation : Organisation
  code : String
  title : String
  description : String
  term : CourseTerm
  session_code : String
  sections : List Section
  prerequisites : String
  corequisites : String
  exclusions : String
  recommended_preparation : String
  breadth_categories : String
  distribution_categories : String
  web_timetable_instructions : String
  delivery_instructions : String
  campus : Campus
deriving DecidableEq, Repr

/-! Raw API payloads, as consumed by `UTSGTimetable`.  A field the parser
reads with `payload[key]` (a required key) is a plain field; a field read
with `payload.get(key, None)` is an `Option`.  The parser normalizes an
empty-list `instructors`/`schedule` to an empty dict before iterating
`.values()`, so those are embedded directly as the list of dict values in
insertion order. -/

/-- One meeting entry of a section's `schedule` sub-map. -/
structure MeetingData where
  meetingDay : Option String
  meetingStartTime : Option String
  meetingEndTime : Option String
  assignedRoom1 : Option String
  assignedRoom2 : Option String
deriving DecidableEq, Repr

/-- One instructor entry of a section's `instructors` sub-map. -/
structure InstructorData where
  firstName : String
  lastName : String
deriving DecidableEq, Repr

/-- One section entry of a course's `meetings` sub-map. -/
structure SectionData where
  teachingMethod : Option String
  sectionNumber : String
  subtitle : Option String
  instructors : List InstructorData
  schedule : List MeetingData
  deliveryMode : Option String
  cancel : Option String
  waitlist : Option String
  enrollmentCapacity : Option String
  actualEnrolment : Option String
  actualWaitlist : Option String
  enrollmentIndicator : Option String
deriving DecidableEq, Repr

/-- A raw course payload.  The Python key `section` (the term letter) is
embedded as the field `sectionKey` because `section` is a Lean keyword. -/
structure CoursePayload where
  code : String
  sectionKey : String
  session : String
  org : String
  courseTitle : String
  courseDescription : String
  meetings : List SectionData
  prerequisite : String
  corequisite : String
  exclusion : String
  recommendedPreparation : String
  breadthCategories : String
  distributionCategories : String
  webTimetableInstructions : String
  deliveryInstructions : String
deriving DecidableEq, Repr

/-! Helpers from `sqrl/utils.py`. -/

/-- Embedding of `nullable_convert(value, func)`: apply a (fallible) conversion unless
the value is `None`. -/
def nullable_convert {α β : Type} (value : Option α) (func : α → Except PyError β) :
    Except PyError (Option β) :=
  match value with
  | none => .ok none
  | some v => (func v).map some

/-- Embedding of `int_or_none(value)`: `nullable_convert(value, int)` — `None` passes
through, anything else goes through Python `int()`. -/
def int_or_none (value : Option String) : Except PyError (Option Int) :=
  nullable_convert value pyInt

/-! The payload normalizer from `UTSGTimetable` in `sqrl/data/sources.py`. -/

/-- Embedding of `UTSGTimetable._convert_time`: split on a colon, convert every part with
`int()`, and build a `Time` from `parts[0]` and `parts[1]`.  A single
segment raises `IndexError` at `parts[1]`; extra segments are converted
(and can raise `ValueError`) but are otherwise ignored. -/
def convert_time (time : String) : Except PyError Time := do
  let parts ← (pySplit ':' time).mapM pyInt
  match parts with
  | p0 :: p1 :: _ => .ok ⟨p0, p1⟩
  | _ => .error .indexError

/-- Embedding of `UTSGTimetable._parse_instructor`. -/
def parse_instructor (payload : InstructorData) : Instructor :=
  ⟨payload.firstName, payload.lastName⟩

/-- Embedding of `UTSGTimetable._parse_schedule`: iterate the meeting entries in order;
an entry missing `meetingDay`, `meetingStartTime` or `meetingEndTime` is
skipped; a kept entry converts its day literal and its two time strings
(either conversion can raise, aborting the whole parse as in Python). -/
def parse_schedule : List MeetingData → Except PyError (List SectionMeeting)
  | [] => .ok []
  | meeting_data :: rest =>
    match meeting_data.meetingDay, meeting_data.meetingStartTime, meeting_data.meetingEndTime with
    | some day, some start_time, some end_time => do
      let d ← MeetingDay.ofString day
      let st ← convert_time start_time
      let et ← convert_time end_time
      let ms ← parse_schedule rest
      .ok (⟨d, st, et, meeting_data.assignedRoom1, meeting_data.assignedRoom2⟩ :: ms)
    | _, _, _ => parse_schedule rest

/-- Embedding of `UTSGTimetable._parse_section`, following Python evaluation order:
instructors, then the schedule, then the constructor arguments left to
right (teaching method, ..., the three `int_or_none` fields). -/
def parse_section (payload : SectionData) : Except PyError Section := do
  let instructors := payload.instructors.map parse_instructor
  let meetings ← parse_schedule payload.schedule
  let teaching_method ← nullable_convert payload.teachingMethod SectionTeachingMethod.ofString
  let delivery_mode ← nullable_convert payload.deliveryMode SectionDeliveryMode.ofString
  let enrolment_capacity ← int_or_none payload.enrollmentCapacity
  let actual_enrolment ← int_or_none payload.actualEnrolment
  let actual_waitlist ← int_or_none payload.actualWaitlist
  .ok
    { teaching_method := teaching_method
      section_number := payload.sectionNumber
      subtitle := payload.subtitle
      instructors := instructors
      meetings := meetings
      delivery_mode := delivery_mode
      cancelled := payload.cancel == some "Cancelled"
      has_waitlist := payload.waitlist == some "Y"
      enrolment_capacity := enrolment_capacity
      actual_enrolment := actual_enrolment
      actual_waitlist := actual_waitlist
      enrolment_indicator := payload.enrollmentIndicator }

/-- Embedding of `UTSGTimetable._parse_course`.  The organisation cache
`self._organisations` (a dict populated once at construction) is passed
explicitly as a lookup function.  Python evaluates the constructor
arguments left to right, so the organisation lookup (`KeyError` when the
org code is absent) happens before the term conversion and the section
parsing. -/
def parse_course (organisations : String → Option Organisation) (payload : CoursePayload) :
    Except PyError Course :=
  let full_code := payload.code ++ "-" ++ payload.sectionKey ++ "-" ++ payload.session
  match organisations payload.org with
  | none => .error (.keyError payload.org)
  | some org => do
  let term ← CourseTerm.ofString payload.sectionKey
  let sections ← payload.meetings.mapM parse_section
  .ok
    { id := full_code
      organisation := org
      code := payload.code
      title := payload.courseTitle
      description := payload.courseDescription
      term := term
      session_code := payload.session
      sections := sections
      prerequisites := payload.prerequisite
      corequisites := payload.corequisite
      exclusions := payload.exclusion
      recommended_preparation := payload.recommendedPreparation
      breadth_categories := payload.breadthCategories
      distribution_categories := payload.distributionCategories
      web_timetable_instructions := payload.webTimetableInstructions
      delivery_instructions := payload.deliveryInstructions
      campus := .stGeorge }

/-! The crawl accumulation from `scrape_courses.get_courses`: iterate the
organisations in order, and for each organisation's course map iterate its
entries in order, skipping any course code already collected. -/

/-- One step of `get_courses`'s accumulation: `if course_name in courses:
continue` else `courses[course_name] = ...` (dict insertion appends a new
key at the end). -/
def dictInsert {α : Type} (courses : List (String × α)) (p : String × α) :
    List (String × α) :=
  if courses.any (fun q => q.1 == p.1) then courses else courses ++ [p]

/-- Embedding of `scrape_courses.get_courses`, abstracted over the per-organisation
course maps (each given as its entry list in iteration order).  The
`if len == 0 then continue` guard of the source is kept. -/
def getCourses {α : Type} (orgCourses : List (List (String × α))) : List (String × α) :=
  orgCourses.foldl (fun courses org =>
    if org.length = 0 then courses
    else org.foldl dictInsert courses) []

/-! The synchronization engine from `TimetableDatasetSource` in
`sqrl/data/sources.py`.  The MongoDB collections are embedded as
association lists keyed by each document's primary key (`Organisation.code`
and `Course.id`); mongoengine's `Document.save()` is an upsert by primary
key: it replaces the existing document in place when the key exists and
appends a new document otherwise. -/

/-- The persistent store: the `Organisation` and `Course` collections. -/
structure Store where
  organisations : List (String × Organisation)
  courses : List (String × Course)
deriving DecidableEq, Repr

/-- Embedding of `Document.save()`: upsert by primary key. -/
def upsert {α : Type} (key : String) (v : α) : List (String × α) → List (String × α)
  | [] => [(key, v)]
  | (k, w) :: rest => if k = key then (k, v) :: rest else (k, w) :: upsert key v rest

/-- Embedding of `TimetableDatasetSource._sync_section`: `Nothing to do here!`. -/
def sync_section (s : Store) (_sec : Section) : Store := s

/-- Embedding of `TimetableDatasetSource._sync_course`: sync each section (a no-op),
then save the course's organisation, then save the course itself. -/
def sync_course (s : Store) (course : Course) : Store :=
  let s1 := course.sections.foldl sync_section s
  let s2 : Store :=
    ⟨upsert course.organisation.code course.organisation s1.organisations, s1.courses⟩
  ⟨s2.organisations, upsert course.id course s2.courses⟩

/-- Embedding of `TimetableDatasetSource.sync`, taking the crawled course list as input
(`_get_all_courses` is network I/O): sync each course in order. -/
def sync (s : Store) (courses : List Course) : Store :=
  courses.foldl sync_course s

/-- A key is present in a collection. -/
def hasKey {α : Type} (l : List (String × α)) (key : String) : Bool :=
  l.any (fun q => q.1 = key)

/-- A collection maps no key to more than one record. -/
def keyNodup {α : Type} (l : List (String × α)) : Prop :=
  l.Pairwise (fun a b => a.1 ≠ b.1)

/-- Every stored course's organisation reference resolves: the organisation
collection holds a record under the referenced code. -/
def orgRefsResolve (s : Store) : Bool :=
  s.courses.all (fun kc => hasKey s.organisations kc.2.organisation.code)

/-! Concrete payloads used in closed checks. -/

/-- A complete meeting payload. -/
def completeMeetingData : MeetingData :=
  ⟨some "MO", some "08:30", some "11:00", some "BA1130", none⟩

/-- A meeting payload missing `meetingDay`. -/
def missingDayMeetingData : MeetingData :=
  ⟨none, some "09:30", some "10:00", none, none⟩

/-- A section payload whose schedule holds one complete meeting and one
meeting missing `meetingDay`. -/
def mixedScheduleSectionData : SectionData :=
  { teachingMethod := some "LEC"
    sectionNumber := "0101"
    subtitle := none
    instructors := [⟨"John", "Doe"⟩]
    schedule := [completeMeetingData, missingDayMeetingData]
    deliveryMode := some "CLASS"
    cancel := none
    waitlist := some "Y"
    enrollmentCapacity := some "100"
    actualEnrolment := some "50"
    actualWaitlist := none
    enrollmentIndicator := none }

/-- A section payload whose `enrollmentCapacity` is the empty string. -/
def emptyCapacitySectionData : SectionData :=
  { teachingMethod := none
    sectionNumber := "0101"
    subtitle := none
    instructors := []
    schedule := []
    deliveryMode := none
    cancel := none
    waitlist := none
    enrollmentCapacity := some ""
    actualEnrolment := none
    actualWaitlist := none
    enrollmentIndicator := none }

/-- A section payload with all three numeric fields absent. -/
def absentIntsSectionData : SectionData :=
  { teachingMethod := none
    sectionNumber := "0201"
    subtitle := none
    instructors := []
    schedule := []
    deliveryMode := none
    cancel := none
    waitlist := none
    enrollmentCapacity := none
    actualEnrolment := none
    actualWaitlist := none
    enrollmentIndicator := none }

/-- The section `absentIntsSectionData` parses to. -/
def absentIntsParsedSection : Section :=
  { teaching_method := none
    section_number := "0201"
    subtitle := none
    instructors := []
    meetings := []
    delivery_mode := none
    cancelled := false
    has_waitlist := false
    enrolment_capacity := none
    actual_enrolment := none
    actual_waitlist := none
    enrolment_indicator := none }

/-- A concrete organisation cache holding only the code "CSC". -/
def testOrganisations : String → Option Organisation :=
  fun code => if code = "CSC" then some ⟨"CSC", "Computer Science"⟩ else none

/-- A course payload whose `org` is not in `testOrganisations`. -/
def orphanCoursePayload : CoursePayload :=
  { code := "MAT137Y1"
    sectionKey := "F"
    session := "20219"
    org := "MAT"
    courseTitle := "Calculus"
    courseDescription := ""
    meetings := []
    prerequisite := ""
    corequisite := ""
    exclusion := ""
    recommendedPreparation := ""
    breadthCategories := ""
    distributionCategories := ""
    webTimetableInstructions := ""
    deliveryInstructions := "" }

/-- A course payload whose `org` is in `testOrganisations`. -/
def cscCoursePayload : CoursePayload :=
  { code := "CSC110Y1"
    sectionKey := "F"
    session := "20219"
    org := "CSC"
    courseTitle := "Foundations of Computer Science I"
    courseDescription := ""
    meetings := []
    prerequisite := ""
    corequisite := ""
    exclusion := ""
    recommendedPreparation := ""
    breadthCategories := ""
    distributionCategories := ""
    webTimetableInstructions := ""
    deliveryInstructions := "" }

/-- A concrete course record (used in closed checks of the sync engine). -/
def sampleCourse : Course :=
  { id := "CSC110Y1-F-20219"
    organisation := ⟨"CSC", "Computer Science"⟩
    code := "CSC110Y1"
    title := "Foundations of Computer Science I"
    description := ""
    term := .firstSemester
    session_code := "20219"
    sections := [absentIntsParsedSection]
    prerequisites := ""
    corequisites := ""
    exclusions := ""
    recommended_preparation := ""
    breadth_categories := ""
    distribution_categories := ""
    web_timetable_instructions := ""
    delivery_instructions := ""
    campus := .stGeorge }

end Sqrl

namespace Sqrl

/-- Bind on an ok value. -/
theorem except_bind_ok {α β : Type} (a : α) (f : α → Except PyError β) :
    (Except.ok a : Except PyError α) >>= f = f a := rfl

/-- Bind on an error. -/
theorem except_bind_error {α β : Type} (e : PyError) (f : α → Except PyError β) :
    (Except.error e : Except PyError α) >>= f = Except.error e := rfl

/-- isOk of an ok value. -/
theorem except_isOk_ok {α : Type} (a : α) : (Except.ok a : Except PyError α).isOk = true := rfl

/-- isOk of an error. -/
theorem except_isOk_error {α : Type} (e : PyError) :
    (Except.error e : Except PyError α).isOk = false := rfl

/-- pure is ok. -/
theorem except_pure {α : Type} (a : α) : (pure a : Except PyError α) = Except.ok a := rfl

/-- Over `Except`, `mapM` succeeds iff every element converts. -/
theorem mapM_except_isOk {α β : Type} (f : α → Except PyError β) :
    ∀ l : List α, (l.mapM f).isOk = true ↔ ∀ a ∈ l, (f a).isOk = true := by
  intro l
  induction l with
  | nil =>
    exact iff_of_true (by rw [List.mapM_nil, except_pure]; exact except_isOk_ok _) (by simp)
  | cons a l ih =>
    rw [List.mapM_cons]
    cases hfa : f a with
    | error e =>
      rw [except_bind_error]
      refine iff_of_false (by simp [except_isOk_error]) (fun h => ?_)
      have hh := h a (List.mem_cons_self a l)
      rw [hfa] at hh
      simp [except_isOk_error] at hh
    | ok b =>
      rw [except_bind_ok]
      cases hl : l.mapM f with
      | error e =>
        rw [hl] at ih
        rw [except_bind_error]
        refine iff_of_false (by simp [except_isOk_error]) (fun h => ?_)
        have hh : ∀ x ∈ l, (f x).isOk = true := fun x hx => h x (List.mem_cons_of_mem a hx)
        rw [← ih] at hh
        simp [except_isOk_error] at hh
      | ok bs =>
        rw [hl] at ih
        rw [except_bind_ok, except_pure]
        refine iff_of_true (except_isOk_ok _) ?_
        intro x hx
        rcases List.mem_cons.mp hx with rfl | hx
        · rw [hfa]; exact except_isOk_ok _
        · exact (ih.mp (except_isOk_ok _)) x hx

/-- Over `Except`, a successful `mapM` produces as many outputs as inputs. -/
theorem mapM_except_ok_length {α β : Type} (f : α → Except PyError β) :
    ∀ (l : List α) (bs : List β), l.mapM f = .ok bs → bs.length = l.length := by
  intro l
  induction l with
  | nil =>
    intro bs h
    rw [List.mapM_nil, except_pure] at h
    cases h
    rfl
  | cons a l ih =>
    intro bs h
    rw [List.mapM_cons] at h
    cases hfa : f a with
    | error e => rw [hfa, except_bind_error] at h; cases h
    | ok b =>
      rw [hfa, except_bind_ok] at h
      cases hl : l.mapM f with
      | error e => rw [hl, except_bind_error] at h; cases h
      | ok tl =>
        rw [hl, except_bind_ok, except_pure] at h
        cases h
        simp [ih tl hl]

/-- A digit character whose decimal value is 9 (resp. 5) is the character
9 (resp. 5). -/
theorem digit_char_eq_of_toNat (c : Char) (h : c.isDigit = true) :
    (c.toNat - 48 = 9 → c = '9') ∧ (c.toNat - 48 = 5 → c = '5') := by
  simp [Char.isDigit, Char.le_def] at h
  obtain ⟨h1, h2⟩ := h
  have h1' : ('0' : Char).val.toNat ≤ c.val.toNat := h1
  have h2' : c.val.toNat ≤ ('9' : Char).val.toNat := h2
  have e0 : ('0' : Char).val.toNat = 48 := by decide
  have e9 : ('9' : Char).val.toNat = 57 := by decide
  constructor
  · intro h9
    apply Char.ext
    apply UInt32.ext
    show c.val.toNat = ('9' : Char).val.toNat
    simp only [Char.toNat] at h9
    omega
  · intro h5
    apply Char.ext
    apply UInt32.ext
    show c.val.toNat = ('5' : Char).val.toNat
    have e5 : ('5' : Char).val.toNat = 53 := by decide
    simp only [Char.toNat] at h5
    omega

/-- The last character of a nonempty all-digit string is a digit. -/
theorem back_isDigit_of_all (s : String) (h1 : s.length = 5)
    (h2 : s.toList.all Char.isDigit = true) : s.back.isDigit = true := by
  have hne : s.data ≠ [] := by
    intro h
    have : s.length = 0 := by simp [String.length, h]
    omega
  have hback : s.back = s.data.getLastD default := String.back_eq s
  rw [hback, List.getLastD_eq_getLast?, List.getLast?_eq_getLast s.data hne]
  simp only [Option.getD_some]
  have hmem := List.getLast_mem hne
  exact List.all_eq_true.mp h2 _ hmem

/-- Success characterization: `TimetableSession.parse` succeeds exactly on length-5 all-digit strings
whose last character is 9 or 5. -/
theorem parse_isOk_iff (s : String) :
    (TimetableSession.parse s).isOk = true ↔
      (s.length = 5 ∧ s.toList.all Char.isDigit = true ∧ (s.back = '9' ∨ s.back = '5')) := by
  unfold TimetableSession.parse
  by_cases h1 : s.length = 5
  case neg =>
    rw [if_pos h1]
    exact iff_of_false (by simp [Except.isOk, Except.toBool]) (fun h => h1 h.1)
  case pos =>
    rw [if_neg (fun h => h h1)]
    by_cases h2 : s.toList.all Char.isDigit = true
    case neg =>
      rw [if_pos (by simpa using h2)]
      exact iff_of_false (by simp [Except.isOk, Except.toBool]) (fun h => h2 h.2.1)
    case pos =>
      rw [if_neg (by simpa using h2)]
      have hd := back_isDigit_of_all s h1 h2
      by_cases h3 : s.back.toNat - 48 ≠ 9 ∧ s.back.toNat - 48 ≠ 5
      case pos =>
        rw [if_pos h3]
        refine iff_of_false (by simp [Except.isOk, Except.toBool]) (fun h => ?_)
        rcases h.2.2 with h9 | h5
        · exact h3.1 (by rw [h9]; decide)
        · exact h3.2 (by rw [h5]; decide)
      case neg =>
        rw [if_neg h3]
        refine iff_of_true rfl ⟨h1, h2, ?_⟩
        rcases not_and_or.mp h3 with h9 | h5
        · exact Or.inl ((digit_char_eq_of_toNat s.back hd).1 (not_not.mp h9))
        · exact Or.inr ((digit_char_eq_of_toNat s.back hd).2 (not_not.mp h5))

/-- Claim C7: `TimetableSession.parse` succeeds only on strings of length
exactly 5 that are all-numeric with last digit 9 or 5, and on every other
input fails with a `ValueError` carrying the offending code and the reason;
in particular it rejects "123" (wrong length), "2020X" (non-numeric) and
"20201" (invalid suffix). -/
theorem c7_parse_rejects_invalid :
    (∀ s : String, (TimetableSession.parse s).isOk = true ↔
      (s.length = 5 ∧ s.toList.all Char.isDigit = true ∧ (s.back = '9' ∨ s.back = '5'))) ∧
    TimetableSession.parse "123" = .error (.valueError
      "invalid session code (\"123\"): expected string of length 5, not 3") ∧
    TimetableSession.parse "2020X" = .error (.valueError
      "invalid session code (\"2020X\"): expected numeric string") ∧
    TimetableSession.parse "20201" = .error (.valueError
      "invalid session code (\"20201\"): expected code to end in one of 9 or 5, not 1") :=
  ⟨parse_isOk_iff, by decide, by decide, by decide⟩

/-- Claim C2: for every valid session `(year, isSummer)`, rendering it to its
5-character code and parsing back yields the original session; in particular
`render(2020, false) = "20209"` and `parse("20205") = (2020, true)`.  The code
violates this (and its own doctests): `parse "20205"` yields the year as the
string slice `"2020"` with `summer = false` because `session_code[-1] == 5`
compares a string with an integer, and `code` on an integer year of 2020
raises `AttributeError` instead of returning `"20209"`. -/
theorem c2_roundtrip_code_bug :
    TimetableSession.parse "20205" = .ok ⟨PyVal.str "2020", false⟩ ∧
    TimetableSession.parse "20205" ≠ .ok ⟨PyVal.int 2020, true⟩ ∧
    (TimetableSession.code ⟨PyVal.int 2020, false⟩).isOk = false := by
  refine ⟨by decide, by decide, rfl⟩

/-- Claim C6 counterexample: "1:2:3" splits into three segments — a segment
count other than two — yet `_convert_time` succeeds with Time(1, 2) instead
of raising, because `parts[0]` and `parts[1]` silently ignore the extra
segment. -/
theorem c6_convert_time_counterexample :
    convert_time "1:2:3" = .ok ⟨1, 2⟩ ∧ (pySplit ':' "1:2:3").length = 3 :=
  ⟨by decide, by decide⟩

/-- Claim C6 (amended): `_convert_time` splits its input on a colon and
parses every segment as an integer, yielding hour and minute from the first
two; `convert_time "08:30" = Time(8, 30)` and `convert_time "11:00" =
Time(11, 0)`; it fails hard on non-numeric content or fewer than two
segments (so `"bad"` fails), but an input with more than two numeric
segments succeeds, using the first two and ignoring the rest. -/
theorem c6_convert_time_amended :
    convert_time "08:30" = .ok ⟨8, 30⟩ ∧
    convert_time "11:00" = .ok ⟨11, 0⟩ ∧
    (convert_time "bad").isOk = false ∧
    (∀ time : String, (convert_time time).isOk = true ↔
      (2 ≤ (pySplit ':' time).length ∧ ∀ p ∈ pySplit ':' time, (pyInt p).isOk = true)) ∧
    (∀ (time : String) (t : Time), convert_time time = .ok t →
      ∃ rest, (pySplit ':' time).mapM pyInt = .ok (t.hour :: t.minute :: rest)) := by
  refine ⟨by decide, by decide, by decide, ?_, ?_⟩
  · intro time
    unfold convert_time
    cases hm : (pySplit ':' time).mapM pyInt with
    | error e =>
      rw [except_bind_error]
      refine iff_of_false (by simp [except_isOk_error]) (fun h => ?_)
      have hh := (mapM_except_isOk pyInt (pySplit ':' time)).mpr h.2
      rw [hm] at hh
      simp [except_isOk_error] at hh
    | ok parts =>
      rw [except_bind_ok]
      have hlen := mapM_except_ok_length pyInt _ _ hm
      have hall : ∀ p ∈ pySplit ':' time, (pyInt p).isOk = true :=
        (mapM_except_isOk pyInt (pySplit ':' time)).mp (by rw [hm]; exact except_isOk_ok _)
      match parts, hlen with
      | [], hlen =>
        refine iff_of_false (by simp [except_isOk_error]) (fun h => ?_)
        have h2 := h.1
        simp at hlen
        omega
      | [p0], hlen =>
        refine iff_of_false (by simp [except_isOk_error]) (fun h => ?_)
        have h2 := h.1
        simp at hlen
        omega
      | p0 :: p1 :: rest, hlen =>
        refine iff_of_true (except_isOk_ok _) ⟨?_, hall⟩
        simp at hlen
        omega
  · intro time t h
    unfold convert_time at h
    cases hm : (pySplit ':' time).mapM pyInt with
    | error e => rw [hm, except_bind_error] at h; cases h
    | ok parts =>
      rw [hm, except_bind_ok] at h
      rcases parts with _ | ⟨p0, _ | ⟨p1, rest⟩⟩
      · cases h
      · cases h
      · cases h
        exact ⟨rest, rfl⟩

/-- Claim C6 amended-theorem witness: the characterizations applied at
concrete inputs. -/
theorem c6_convert_time_amended_witness :
    ∃ rest, (pySplit ':' "1:2:3").mapM pyInt = .ok ((1 : Int) :: (2 : Int) :: rest) :=
  c6_convert_time_amended.2.2.2.2 "1:2:3" ⟨1, 2⟩ (by decide)

end Sqrl

namespace Sqrl

/-- A meeting payload missing one of its three core fields is skipped. -/
theorem parse_schedule_cons_skip (m : MeetingData) (rest : List MeetingData)
    (h : m.meetingDay = none ∨ m.meetingStartTime = none ∨ m.meetingEndTime = none) :
    parse_schedule (m :: rest) = parse_schedule rest := by
  simp only [parse_schedule]
  rcases h with h | h | h
  · rw [h]
  · rw [h]
    cases m.meetingDay <;> rfl
  · rw [h]
    cases m.meetingDay <;> cases m.meetingStartTime <;> rfl

/-- Parsing a schedule treats equal tails equally under a common head. -/
theorem parse_schedule_cons_congr (x : MeetingData) (l1 l2 : List MeetingData)
    (h : parse_schedule l1 = parse_schedule l2) :
    parse_schedule (x :: l1) = parse_schedule (x :: l2) := by
  simp only [parse_schedule]
  cases x.meetingDay <;> cases x.meetingStartTime <;> cases x.meetingEndTime <;>
    simp only [h]

/-- Claim C5: a meeting payload with `meetingDay`, `meetingStartTime` or
`meetingEndTime` absent is dropped from the parsed schedule without raising
an error (parsing a schedule with it equals parsing the schedule without
it), and `_parse_section` on a payload holding one complete meeting and one
meeting missing `meetingDay` succeeds with exactly one meeting. -/
theorem c5_incomplete_meetings_dropped (xs ys : List MeetingData) (m : MeetingData)
    (h : m.meetingDay = none ∨ m.meetingStartTime = none ∨ m.meetingEndTime = none) :
    parse_schedule (xs ++ m :: ys) = parse_schedule (xs ++ ys) ∧
    (parse_section mixedScheduleSectionData).map (fun sec => sec.meetings.length) = .ok 1 := by
  constructor
  · induction xs with
    | nil => simpa using parse_schedule_cons_skip m ys h
    | cons x xs ih => simpa using parse_schedule_cons_congr x _ _ ih
  · decide

/-- Claim C5 witness: the drop equation applied to the concrete meeting
payload missing `meetingDay`. -/
theorem c5_incomplete_meetings_dropped_witness :
    parse_schedule ([completeMeetingData] ++ missingDayMeetingData :: []) =
      parse_schedule ([completeMeetingData] ++ []) :=
  (c5_incomplete_meetings_dropped [completeMeetingData] [] missingDayMeetingData
    (Or.inl rfl)).1

end Sqrl

namespace Sqrl

/-- Claim C8 counterexample: a section payload whose `enrollmentCapacity`
is the empty string makes `_parse_section` raise (the claim would have it
produce null, not an error): `int("")` is a `ValueError`. -/
theorem c8_empty_string_counterexample :
    (parse_section emptyCapacitySectionData).isOk = false ∧
    int_or_none (some "") = .error (.valueError "invalid literal for int() with base 10: ") :=
  ⟨by decide, by decide⟩

/-- Claim C8 (amended): `_parse_section` converts the numeric-string fields
(`enrollmentCapacity`, `actualEnrolment`, `actualWaitlist`) with
`int_or_none`, which yields null (not zero, not an error) exactly when the
field is absent (`None`); a present string — including the empty string —
goes through `int()`, so an empty or non-numeric string raises a
`ValueError` instead of yielding null. -/
theorem c8_int_fields_amended :
    (∀ (payload : SectionData) (sec : Section), parse_section payload = .ok sec →
      int_or_none payload.enrollmentCapacity = .ok sec.enrolment_capacity ∧
      int_or_none payload.actualEnrolment = .ok sec.actual_enrolment ∧
      int_or_none payload.actualWaitlist = .ok sec.actual_waitlist) ∧
    int_or_none none = .ok none ∧
    (int_or_none (some "")).isOk = false ∧
    (∀ s : String, int_or_none (some s) = (pyInt s).map some) := by
  refine ⟨?_, rfl, by decide, fun s => rfl⟩
  intro payload sec h
  unfold parse_section at h
  cases h1 : parse_schedule payload.schedule with
  | error e => rw [h1, except_bind_error] at h; cases h
  | ok meetings =>
    rw [h1, except_bind_ok] at h
    cases h2 : nullable_convert payload.teachingMethod SectionTeachingMethod.ofString with
    | error e => rw [h2, except_bind_error] at h; cases h
    | ok tm =>
      rw [h2, except_bind_ok] at h
      cases h3 : nullable_convert payload.deliveryMode SectionDeliveryMode.ofString with
      | error e => rw [h3, except_bind_error] at h; cases h
      | ok dm =>
        rw [h3, except_bind_ok] at h
        cases h4 : int_or_none payload.enrollmentCapacity with
        | error e => rw [h4, except_bind_error] at h; cases h
        | ok cap =>
          rw [h4, except_bind_ok] at h
          cases h5 : int_or_none payload.actualEnrolment with
          | error e => rw [h5, except_bind_error] at h; cases h
          | ok enr =>
            rw [h5, except_bind_ok] at h
            cases h6 : int_or_none payload.actualWaitlist with
            | error e => rw [h6, except_bind_error] at h; cases h
            | ok wl =>
              rw [h6, except_bind_ok] at h
              cases h
              exact ⟨rfl, rfl, rfl⟩

/-- Claim C8 amended-theorem witness: the propagation applied to the
concrete payload with all three numeric fields absent. -/
theorem c8_int_fields_amended_witness :
    int_or_none absentIntsSectionData.enrollmentCapacity =
        .ok absentIntsParsedSection.enrolment_capacity ∧
    int_or_none absentIntsSectionData.actualEnrolment =
        .ok absentIntsParsedSection.actual_enrolment ∧
    int_or_none absentIntsSectionData.actualWaitlist =
        .ok absentIntsParsedSection.actual_waitlist :=
  c8_int_fields_amended.1 absentIntsSectionData absentIntsParsedSection (by decide)

end Sqrl

namespace Sqrl

/-- Claim C9: `_parse_course` on a payload whose `org` is not a key of the
organisation lookup fails with a `KeyError` on that code (the lookup is
evaluated before the term conversion and the section parsing, so the
failure wins regardless of the rest of the payload); when the `org` code is
present, a successfully parsed course references exactly the organisation
the lookup holds for it. -/
theorem c9_org_lookup (organisations : String → Option Organisation) (payload : CoursePayload) :
    (organisations payload.org = none →
      parse_course organisations payload = .error (.keyError payload.org)) ∧
    (∀ course, parse_course organisations payload = .ok course →
      organisations payload.org = some course.organisation) := by
  constructor
  · intro h
    unfold parse_course
    rw [h]
  · intro course h
    unfold parse_course at h
    cases ho : organisations payload.org with
    | none =>
      rw [ho] at h
      cases h
    | some o =>
      rw [ho] at h
      dsimp only at h
      cases ht : CourseTerm.ofString payload.sectionKey with
      | error e => rw [ht, except_bind_error] at h; cases h
      | ok term =>
        rw [ht, except_bind_ok] at h
        cases hs : payload.meetings.mapM parse_section with
        | error e => rw [hs, except_bind_error] at h; cases h
        | ok sections =>
          rw [hs, except_bind_ok] at h
          cases h
          rfl

/-- Claim C9 witness: the two halves applied to concrete payloads against
the concrete organisation cache. -/
theorem c9_org_lookup_witness :
    parse_course testOrganisations orphanCoursePayload = .error (.keyError "MAT") ∧
    testOrganisations "CSC" = some ⟨"CSC", "Computer Science"⟩ := by
  constructor
  · exact (c9_org_lookup testOrganisations orphanCoursePayload).1 (by decide)
  · have h := (c9_org_lookup testOrganisations cscCoursePayload).2
      { id := "CSC110Y1-F-20219"
        organisation := ⟨"CSC", "Computer Science"⟩
        code := "CSC110Y1"
        title := "Foundations of Computer Science I"
        description := ""
        term := .firstSemester
        session_code := "20219"
        sections := []
        prerequisites := ""
        corequisites := ""
        exclusions := ""
        recommended_preparation := ""
        breadth_categories := ""
        distribution_categories := ""
        web_timetable_instructions := ""
        delivery_instructions := ""
        campus := .stGeorge } (by decide)
    exact h

/-- Claim C10: `Section.code` dereferences `teaching_method.value`
unconditionally, so on a Section whose `teaching_method` is `None` it
raises `AttributeError` instead of returning a key, and when the teaching
method is present it returns the
teaching-method-value/hyphen/section-number key. -/
theorem c10_section_code_requires_teaching_method (s : Section) :
    (s.teaching_method = none →
      Section.code s = .error (.attributeError "NoneType object has no attribute value")) ∧
    (∀ tm, s.teaching_method = some tm →
      Section.code s = .ok (tm.value ++ "-" ++ s.section_number)) := by
  constructor
  · intro h
    unfold Section.code
    rw [h]
  · intro tm h
    unfold Section.code
    rw [h]

/-- Claim C10 witness: both halves applied to concrete sections. -/
theorem c10_section_code_witness :
    Section.code absentIntsParsedSection =
      .error (.attributeError "NoneType object has no attribute value") ∧
    Section.code
      { absentIntsParsedSection with teaching_method := some SectionTeachingMethod.lecture } =
      .ok ("LEC" ++ "-" ++ "0201") := by
  constructor
  · exact (c10_section_code_requires_teaching_method absentIntsParsedSection).1 rfl
  · exact (c10_section_code_requires_teaching_method _).2 SectionTeachingMethod.lecture rfl

end Sqrl

namespace Sqrl

/-- Inserting into the accumulated course dict: the entry found for a key
is the accumulator's entry when there is one, else the new pair when it
carries that key. -/
theorem dictInsert_find? {α : Type} (acc : List (String × α)) (p : String × α) (c : String) :
    (dictInsert acc p).find? (fun q => q.1 == c) =
      ((acc.find? (fun q => q.1 == c)).or (if p.1 == c then some p else none)) := by
  unfold dictInsert
  by_cases hmem : acc.any (fun q => q.1 == p.1) = true
  · rw [if_pos hmem]
    by_cases hc : p.1 = c
    · subst hc
      have hsome : (acc.find? (fun q => q.1 == p.1)).isSome = true :=
        List.find?_isSome.mpr (List.any_eq_true.mp hmem)
      cases hf : acc.find? (fun q => q.1 == p.1) with
      | some q => simp [Option.or]
      | none => rw [hf] at hsome; cases hsome
    · have : (p.1 == c) = false := by simp [hc]
      simp [this]
  · rw [if_neg hmem, List.find?_append]
    congr 1
    rw [List.find?_cons]
    by_cases hc : p.1 = c
    · simp [hc]
    · have : (p.1 == c) = false := by simp [hc]
      simp [this]

/-- Folding course entries into the accumulator: the entry found for a key
is the accumulator's entry when there is one, else the first streamed entry
with that key. -/
theorem foldl_dictInsert_find? {α : Type} (c : String) :
    ∀ (l : List (String × α)) (acc : List (String × α)),
      ((l.foldl dictInsert acc).find? (fun q => q.1 == c)) =
        ((acc.find? (fun q => q.1 == c)).or (l.find? (fun q => q.1 == c))) := by
  intro l
  induction l with
  | nil => simp
  | cons p l ih =>
    intro acc
    rw [List.foldl_cons, ih (dictInsert acc p), dictInsert_find?, Option.or_assoc]
    congr 1
    rw [List.find?_cons]
    by_cases hc : p.1 = c
    · simp [hc, Option.or]
    · have : (p.1 == c) = false := by simp [hc]
      simp [this]

/-- Appending with `dictInsert` keeps keys duplicate-free. -/
theorem dictInsert_keyNodup {α : Type} (acc : List (String × α)) (p : String × α)
    (h : keyNodup acc) : keyNodup (dictInsert acc p) := by
  unfold dictInsert
  by_cases hmem : acc.any (fun q => q.1 == p.1) = true
  · rwa [if_pos hmem]
  · rw [if_neg hmem]
    apply List.pairwise_append.mpr
    refine ⟨h, List.pairwise_singleton _ _, ?_⟩
    intro a ha b hb hab
    rcases List.mem_singleton.mp hb with rfl
    exact hmem (List.any_eq_true.mpr ⟨a, ha, by simp [hab]⟩)

/-- Folding entries with `dictInsert` keeps keys duplicate-free. -/
theorem foldl_dictInsert_keyNodup {α : Type} :
    ∀ (l : List (String × α)) (acc : List (String × α)),
      keyNodup acc → keyNodup (l.foldl dictInsert acc) := by
  intro l
  induction l with
  | nil => intro acc h; exact h
  | cons p l ih =>
    intro acc h
    exact ih _ (dictInsert_keyNodup acc p h)

/-- In a collection with duplicate-free keys, each key matches at most one
entry. -/
theorem countP_key_le_one {α : Type} :
    ∀ (l : List (String × α)), keyNodup l → ∀ c : String,
      l.countP (fun q => q.1 == c) ≤ 1 := by
  intro l
  induction l with
  | nil => intro _ c; simp
  | cons a l ih =>
    intro h c
    have hrest := (List.pairwise_cons.mp h).2
    have hhead := (List.pairwise_cons.mp h).1
    rw [List.countP_cons]
    by_cases hc : a.1 = c
    · have hz : l.countP (fun q => q.1 == c) = 0 := by
        apply List.countP_eq_zero.mpr
        intro b hb hbc
        exact hhead b hb (by subst hc; exact (beq_iff_eq.mp hbc).symm ▸ rfl)
      simp [hz, hc]
    · have : (a.1 == c) = false := by simp [hc]
      simp only [this]
      simpa using ih hrest c
  
/-- Unfolding: `getCourses` never skips a whole organisation (the empty-map `continue`
is a no-op): it folds every entry stream in order. -/
theorem getCourses_eq_foldl_flatten {α : Type} (orgCourses : List (List (String × α))) :
    getCourses orgCourses = orgCourses.flatten.foldl dictInsert [] := by
  unfold getCourses
  suffices h : ∀ (L : List (List (String × α))) (acc : List (String × α)),
      L.foldl (fun courses org =>
        if org.length = 0 then courses else org.foldl dictInsert courses) acc =
      L.flatten.foldl dictInsert acc from h orgCourses []
  intro L
  induction L with
  | nil => intro acc; rfl
  | cons org L ih =>
    intro acc
    rw [List.foldl_cons, List.flatten_cons, List.foldl_append, ih]
    congr 1
    cases org with
    | nil => rfl
    | cons q org => rfl

/-- Claim C3: when two organisations' payload maps both contain the same
course code, `get_courses` includes that code exactly once in its result,
keeping the first-seen occurrence (the first entry carrying the code in the
organisation-by-organisation stream) and discarding later duplicates. -/
theorem c3_crawl_dedup {α : Type} (orgCourses : List (List (String × α)))
    (org1 org2 : List (String × α)) (c : String)
    (h1 : org1 ∈ orgCourses) (_h2 : org2 ∈ orgCourses)
    (hc1 : org1.any (fun q => q.1 == c) = true)
    (_hc2 : org2.any (fun q => q.1 == c) = true) :
    (getCourses orgCourses).countP (fun q => q.1 == c) = 1 ∧
    (getCourses orgCourses).find? (fun q => q.1 == c) =
      orgCourses.flatten.find? (fun q => q.1 == c) := by
  have hfind : (getCourses orgCourses).find? (fun q => q.1 == c) =
      orgCourses.flatten.find? (fun q => q.1 == c) := by
    rw [getCourses_eq_foldl_flatten, foldl_dictInsert_find?]
    simp
  have hnodup : keyNodup (getCourses orgCourses) := by
    rw [getCourses_eq_foldl_flatten]
    exact foldl_dictInsert_keyNodup _ _ (by simp [keyNodup])
  have hex : ∃ q ∈ orgCourses.flatten, (q.1 == c) = true := by
    obtain ⟨q, hq, hqc⟩ := List.any_eq_true.mp hc1
    exact ⟨q, List.mem_flatten.mpr ⟨org1, h1, hq⟩, hqc⟩
  have hsome : (orgCourses.flatten.find? (fun q => q.1 == c)).isSome = true :=
    List.find?_isSome.mpr hex
  have hsome2 : ((getCourses orgCourses).find? (fun q => q.1 == c)).isSome = true := by
    rw [hfind]; exact hsome
  refine ⟨le_antisymm (countP_key_le_one _ hnodup c) ?_, hfind⟩
  obtain ⟨q, hq⟩ := Option.isSome_iff_exists.mp hsome2
  have hmem : q ∈ getCourses orgCourses := List.mem_of_find?_eq_some hq
  have hpred := @List.find?_some _ (fun q => q.1 == c) q (getCourses orgCourses) hq
  exact List.countP_pos_iff.mpr ⟨q, hmem, hpred⟩

/-- Claim C3 witness: two organisations both offering the code "CSC110Y1",
with distinct payloads; the crawl keeps the first payload only. -/
theorem c3_crawl_dedup_witness :
    (getCourses [[("CSC110Y1", 1)], [("CSC110Y1", 2)]]).countP
      (fun q => q.1 == "CSC110Y1") = 1 ∧
    (getCourses [[("CSC110Y1", 1)], [("CSC110Y1", 2)]]).find?
      (fun q => q.1 == "CSC110Y1") =
      ([[("CSC110Y1", 1)], [("CSC110Y1", 2)]] : List (List (String × Nat))).flatten.find?
      (fun q => q.1 == "CSC110Y1") :=
  c3_crawl_dedup [[("CSC110Y1", 1)], [("CSC110Y1", 2)]] [("CSC110Y1", 1)] [("CSC110Y1", 2)]
    "CSC110Y1" (by simp) (by simp) (by decide) (by decide)

end Sqrl

namespace Sqrl

/-- The keys after an upsert are the old keys plus the upserted key. -/
theorem hasKey_upsert {α : Type} (k k' : String) (v : α) :
    ∀ l : List (String × α), hasKey (upsert k v l) k' = (hasKey l k' || decide (k = k')) := by
  intro l
  induction l with
  | nil => simp [upsert, hasKey]
  | cons hd tl ih =>
    obtain ⟨k1, w⟩ := hd
    by_cases h : k1 = k
    · subst h
      rw [upsert, if_pos rfl]
      simp only [hasKey, List.any_cons]
      by_cases hk : k1 = k'
      · simp [hk]
      · simp [hk]
    · rw [upsert, if_neg h]
      simp only [hasKey, List.any_cons]
      simp only [hasKey] at ih
      rw [ih, Bool.or_assoc]

/-- An upsert of a key already present does not change the record count. -/
theorem upsert_length {α : Type} (k : String) (v : α) :
    ∀ l : List (String × α),
      (upsert k v l).length = if hasKey l k = true then l.length else l.length + 1 := by
  intro l
  induction l with
  | nil => simp [upsert, hasKey]
  | cons hd tl ih =>
    obtain ⟨k1, w⟩ := hd
    by_cases h : k1 = k
    · rw [upsert, if_pos h]
      simp [hasKey, h]
    · rw [upsert, if_neg h]
      simp only [hasKey, List.any_cons, List.length_cons]
      simp only [hasKey] at ih
      rw [ih]
      by_cases htl : tl.any (fun q => q.1 = k) = true
      · simp [htl, h]
      · simp only [Bool.not_eq_true] at htl
        simp [htl, h]

/-- A member of an upserted collection is the upserted pair or an original
member. -/
theorem mem_upsert {α : Type} (k : String) (v : α) :
    ∀ (l : List (String × α)) (b : String × α),
      b ∈ upsert k v l → b = (k, v) ∨ b ∈ l := by
  intro l
  induction l with
  | nil =>
    intro b hb
    rw [upsert] at hb
    exact Or.inl (List.mem_singleton.mp hb)
  | cons hd tl ih =>
    intro b hb
    obtain ⟨k1, w⟩ := hd
    by_cases h : k1 = k
    · rw [upsert, if_pos h] at hb
      rcases List.mem_cons.mp hb with rfl | hb
      · exact Or.inl (by rw [h])
      · exact Or.inr (List.mem_cons_of_mem _ hb)
    · rw [upsert, if_neg h] at hb
      rcases List.mem_cons.mp hb with rfl | hb
      · exact Or.inr (List.mem_cons_self _ _)
      · rcases ih b hb with hb' | hb'
        · exact Or.inl hb'
        · exact Or.inr (List.mem_cons_of_mem _ hb')

/-- An upsert keeps keys duplicate-free. -/
theorem keyNodup_upsert {α : Type} (k : String) (v : α) :
    ∀ l : List (String × α), keyNodup l → keyNodup (upsert k v l) := by
  intro l
  induction l with
  | nil => intro _; simp [upsert, keyNodup]
  | cons hd tl ih =>
    intro h
    obtain ⟨k1, w⟩ := hd
    obtain ⟨hhead, htl⟩ := List.pairwise_cons.mp h
    by_cases hk : k1 = k
    · rw [upsert, if_pos hk]
      exact List.Pairwise.cons hhead htl
    · rw [upsert, if_neg hk]
      refine List.Pairwise.cons ?_ (ih htl)
      intro b hb
      rcases mem_upsert k v tl b hb with rfl | hb'
      · exact hk
      · exact hhead b hb'

end Sqrl

namespace Sqrl

/-- Since `_sync_section` does nothing, so folding it over the sections is the
identity on the store. -/
theorem foldl_sync_section (s : Store) : ∀ l : List Section, l.foldl sync_section s = s := by
  intro l
  induction l with
  | nil => rfl
  | cons x l ih => exact ih

/-- Unfolding: `_sync_course` amounts to upserting the organisation by code and the
course by id. -/
theorem sync_course_eq (s : Store) (c : Course) :
    sync_course s c =
      ⟨upsert c.organisation.code c.organisation s.organisations,
       upsert c.id c s.courses⟩ := by
  unfold sync_course
  rw [foldl_sync_section]

/-- Syncing never removes an organisation key. -/
theorem sync_orgs_hasKey_mono :
    ∀ (cs : List Course) (s : Store) (k : String),
      hasKey s.organisations k = true → hasKey (sync s cs).organisations k = true := by
  intro cs
  induction cs with
  | nil => intro s k h; exact h
  | cons c cs ih =>
    intro s k h
    show hasKey (sync (sync_course s c) cs).organisations k = true
    apply ih
    rw [sync_course_eq, hasKey_upsert]
    simp [h]

/-- Syncing never removes a course key. -/
theorem sync_courses_hasKey_mono :
    ∀ (cs : List Course) (s : Store) (k : String),
      hasKey s.courses k = true → hasKey (sync s cs).courses k = true := by
  intro cs
  induction cs with
  | nil => intro s k h; exact h
  | cons c cs ih =>
    intro s k h
    show hasKey (sync (sync_course s c) cs).courses k = true
    apply ih
    rw [sync_course_eq, hasKey_upsert]
    simp [h]

/-- After a sync run, every synced course's keys are present in the store. -/
theorem sync_hasKeys_after :
    ∀ (cs : List Course) (s : Store), ∀ c ∈ cs,
      hasKey (sync s cs).organisations c.organisation.code = true ∧
      hasKey (sync s cs).courses c.id = true := by
  intro cs
  induction cs with
  | nil => intro s c h; cases h
  | cons c0 cs ih =>
    intro s c h
    rcases List.mem_cons.mp h with rfl | h
    · constructor
      · show hasKey (sync (sync_course s c) cs).organisations c.organisation.code = true
        apply sync_orgs_hasKey_mono
        rw [sync_course_eq, hasKey_upsert]
        simp
      · show hasKey (sync (sync_course s c) cs).courses c.id = true
        apply sync_courses_hasKey_mono
        rw [sync_course_eq, hasKey_upsert]
        simp
    · exact ih (sync_course s c0) c h

/-- A sync run whose courses' keys are all already present does not change
either record count. -/
theorem sync_length_of_keys :
    ∀ (cs : List Course) (s : Store),
      (∀ c ∈ cs, hasKey s.organisations c.organisation.code = true ∧
        hasKey s.courses c.id = true) →
      (sync s cs).organisations.length = s.organisations.length ∧
      (sync s cs).courses.length = s.courses.length := by
  intro cs
  induction cs with
  | nil => intro s _; exact ⟨rfl, rfl⟩
  | cons c cs ih =>
    intro s h
    have hc := h c (List.mem_cons_self c cs)
    have h1 : (sync_course s c).organisations.length = s.organisations.length := by
      rw [sync_course_eq, upsert_length]
      simp [hc.1]
    have h2 : (sync_course s c).courses.length = s.courses.length := by
      rw [sync_course_eq, upsert_length]
      simp [hc.2]
    have hrest : ∀ c' ∈ cs, hasKey (sync_course s c).organisations c'.organisation.code = true ∧
        hasKey (sync_course s c).courses c'.id = true := by
      intro c' hc'
      have hmem := h c' (List.mem_cons_of_mem _ hc')
      rw [sync_course_eq]
      constructor
      · rw [hasKey_upsert]; simp [hmem.1]
      · rw [hasKey_upsert]; simp [hmem.2]
    have hr := ih (sync_course s c) hrest
    exact ⟨by rw [show sync s (c :: cs) = sync (sync_course s c) cs from rfl, hr.1, h1],
           by rw [show sync s (c :: cs) = sync (sync_course s c) cs from rfl, hr.2, h2]⟩

/-- Syncing keeps both collections' keys duplicate-free. -/
theorem sync_keyNodup :
    ∀ (cs : List Course) (s : Store), keyNodup s.organisations → keyNodup s.courses →
      keyNodup (sync s cs).organisations ∧ keyNodup (sync s cs).courses := by
  intro cs
  induction cs with
  | nil => intro s h1 h2; exact ⟨h1, h2⟩
  | cons c cs ih =>
    intro s h1 h2
    show keyNodup (sync (sync_course s c) cs).organisations ∧
      keyNodup (sync (sync_course s c) cs).courses
    apply ih
    · rw [sync_course_eq]
      exact keyNodup_upsert _ _ _ h1
    · rw [sync_course_eq]
      exact keyNodup_upsert _ _ _ h2

/-- Claim C1: running `sync` twice on the same course list leaves the store
with the same Organisation and Course record counts as one run, and no key
maps to more than one record. -/
theorem c1_sync_idempotent (s : Store) (cs : List Course)
    (horg : keyNodup s.organisations) (hcrs : keyNodup s.courses) :
    (sync (sync s cs) cs).organisations.length = (sync s cs).organisations.length ∧
    (sync (sync s cs) cs).courses.length = (sync s cs).courses.length ∧
    keyNodup (sync (sync s cs) cs).organisations ∧
    keyNodup (sync (sync s cs) cs).courses := by
  have hkeys : ∀ c ∈ cs, hasKey (sync s cs).organisations c.organisation.code = true ∧
      hasKey (sync s cs).courses c.id = true :=
    fun c hc => sync_hasKeys_after cs s c hc
  have hlen := sync_length_of_keys cs (sync s cs) hkeys
  have hnd1 := sync_keyNodup cs s horg hcrs
  have hnd2 := sync_keyNodup cs (sync s cs) hnd1.1 hnd1.2
  exact ⟨hlen.1, hlen.2, hnd2.1, hnd2.2⟩

/-- Claim C1 witness: idempotence at a concrete store and course list. -/
theorem c1_sync_idempotent_witness :
    (sync (sync ⟨[], []⟩ [sampleCourse]) [sampleCourse]).organisations.length =
      (sync ⟨[], []⟩ [sampleCourse]).organisations.length ∧
    (sync (sync ⟨[], []⟩ [sampleCourse]) [sampleCourse]).courses.length =
      (sync ⟨[], []⟩ [sampleCourse]).courses.length ∧
    keyNodup (sync (sync ⟨[], []⟩ [sampleCourse]) [sampleCourse]).organisations ∧
    keyNodup (sync (sync ⟨[], []⟩ [sampleCourse]) [sampleCourse]).courses :=
  c1_sync_idempotent ⟨[], []⟩ [sampleCourse] (by simp [keyNodup]) (by simp [keyNodup])

/-- Claim C4: `_sync_course` saves a course's organisation before the course
itself, so if every stored course's organisation reference resolves before a
sync run, it still does after: syncing never produces a dangling
organisation reference. -/
theorem c4_org_refs_resolve (s : Store) (cs : List Course)
    (h : orgRefsResolve s = true) : orgRefsResolve (sync s cs) = true := by
  induction cs generalizing s with
  | nil => exact h
  | cons c cs ih =>
    show orgRefsResolve (sync (sync_course s c) cs) = true
    apply ih
    rw [sync_course_eq]
    apply List.all_eq_true.mpr
    intro kc hkc
    rcases mem_upsert _ _ _ kc hkc with rfl | hkc'
    · rw [hasKey_upsert]
      simp
    · have hres := List.all_eq_true.mp h kc hkc'
      rw [hasKey_upsert]
      simp only [Bool.or_eq_true]
      exact Or.inl hres

/-- Claim C4 witness: the invariant holds after syncing a concrete course
into the empty store. -/
theorem c4_org_refs_resolve_witness :
    orgRefsResolve (sync ⟨[], []⟩ [sampleCourse]) = true :=
  c4_org_refs_resolve ⟨[], []⟩ [sampleCourse] (by decide)

end Sqrl
